import Mathlib

/-!
Verification development for the ESPI financial-report extraction engine
(`app/dane_finansowe.py`).  The Python source is shallowly embedded below:
strings become `List Char`/`String`, Python floats become `Rat` (exact
real-number semantics; where IEEE overflow matters a separate `PyFloat`
refinement with the double-precision overflow threshold is used), Python
dicts become association lists, and code that can raise becomes `Option`.
-/

set_option maxRecDepth 4000
set_option exponentiation.threshold 1100

set_option allowUnsafeReducibility true in
attribute [semireducible] Rat.add Rat.mul Rat.inv Rat.sub Rat.div Rat.ofScientific

namespace Espi

/-! ## Basic character and list utilities (Python string primitives) -/

/-- Python `str.isspace`-style whitespace test, restricted to the ASCII
whitespace characters that occur in the reports (`str.strip` semantics on
those characters). -/
def isWS (c : Char) : Bool := c.isWhitespace

/-- Drop trailing whitespace, as the right half of Python `str.strip()`. -/
def dropTrailingWS (l : List Char) : List Char :=
  (l.reverse.dropWhile isWS).reverse

/-- Python `str.strip()`: drop leading and trailing whitespace. -/
def pyStrip (l : List Char) : List Char :=
  dropTrailingWS (l.dropWhile isWS)

/-- Python `str.strip()` packaged on `String`. -/
def pyStripStr (s : String) : String :=
  String.mk (pyStrip s.toList)

/-- Decidable check that `p` is a leading segment of `l`. -/
def isPrefixL : List Char → List Char → Bool
  | [], _ => true
  | _ :: _, [] => false
  | a :: as, b :: bs => if a = b then isPrefixL as bs else false

/-- Python substring containment `pat in s`. -/
def containsSub (pat : List Char) : List Char → Bool
  | [] => pat.isEmpty
  | c :: rest => isPrefixL pat (c :: rest) || containsSub pat rest

/-- Find the first occurrence of `pat` in `s` and split around it:
`some (before, after)`, or `none` when `pat` does not occur.  This is the
single step underlying Python `str.split(sep, maxsplit)`. -/
def splitOnceSub (pat : List Char) : List Char → Option (List Char × List Char)
  | [] => none
  | c :: rest =>
    if isPrefixL pat (c :: rest) then some ([], (c :: rest).drop pat.length)
    else (splitOnceSub pat rest).map (fun p => (c :: p.1, p.2))

/-- Split a character list on a separator character, Python `str.split(sep)`
semantics (empty pieces are kept). -/
def splitOnChar (sep : Char) : List Char → List (List Char)
  | [] => [[]]
  | c :: rest =>
    if c = sep then [] :: splitOnChar sep rest
    else
      match splitOnChar sep rest with
      | [] => [[c]]
      | p :: ps => (c :: p) :: ps

/-- Python `text.split('\n')` on a `String`. -/
def splitLines (s : String) : List String :=
  (splitOnChar '\n' s.toList).map String.mk

/-- Python `str.lower()` for the characters that occur in these reports:
ASCII letters plus the Polish uppercase letters used by the vocabulary. -/
def lowerPL (c : Char) : Char :=
  if 65 ≤ c.toNat ∧ c.toNat ≤ 90 then Char.ofNat (c.toNat + 32)
  else if c = 'Ą' then 'ą' else if c = 'Ć' then 'ć' else if c = 'Ę' then 'ę'
  else if c = 'Ł' then 'ł' else if c = 'Ń' then 'ń' else if c = 'Ó' then 'ó'
  else if c = 'Ś' then 'ś' else if c = 'Ź' then 'ź' else if c = 'Ż' then 'ż'
  else c

/-! ## Number Normalizer (`clean_number`, dane_finansowe.py lines 180-213) -/

/-- Character class of the regex `[\d\s,.-]` used at line 195 of the source. -/
def isNumClass (c : Char) : Bool :=
  c.isDigit || isWS c || c = ',' || c = '.' || c = '-'

/-- Accumulator worker for `findallRuns`: `cur` holds the current
(reversed) run of `isNumClass` characters. -/
def runsAux (cur : List Char) : List Char → List (List Char)
  | [] => if cur = [] then [] else [cur.reverse]
  | c :: rest =>
    if isNumClass c then runsAux (c :: cur) rest
    else if cur = [] then runsAux [] rest else cur.reverse :: runsAux [] rest

/-- Python `re.findall(r'[\d\s,.-]+', s)`: the maximal runs of characters
from the class `{digit, whitespace, comma, period, minus}`, left to right. -/
def findallRuns (s : List Char) : List (List Char) :=
  runsAux [] s

/-- Fuel-indexed worker for `collapse`; the fuel dominates the number of
characters still to be examined, so `collapseF s.length s` realizes the
full substitution. -/
def collapseF : Nat → List Char → List Char
  | 0, s => s
  | _ + 1, [] => []
  | fuel + 1, c :: rest =>
    if c.isDigit then
      match rest.dropWhile isWS with
      | d :: tail =>
        if rest.takeWhile isWS ≠ [] ∧ d.isDigit then c :: d :: collapseF fuel tail
        else c :: collapseF fuel rest
      | [] => c :: collapseF fuel rest
    else c :: collapseF fuel rest

/-- Python `re.sub(r'(\d)\s+(\d)', r'\1\2', s)` (line 199): remove
whitespace lying between two digits; scanning resumes after each match,
exactly as `re.sub` does. -/
def collapse (s : List Char) : List Char :=
  collapseF s.length s

/-- Numeric value of a list of decimal digit characters. -/
def digitsVal (l : List Char) : Nat :=
  l.foldl (fun a c => a * 10 + (c.toNat - 48)) 0

/-- Exact value accepted by Python `float(s)` for the strings reaching line
211 of the source (characters drawn from digits, `.` and `-` only):
an optional leading minus, then digits with at most one decimal point and
at least one digit.  `none` models the `ValueError` branch. -/
def pyFloatVal (s : List Char) : Option Rat :=
  let neg : Bool := s.head? = some '-'
  let t : List Char := if s.head? = some '-' then s.tail else s
  let val? : Option Rat :=
    match splitOnChar '.' t with
    | [ip] => if ip ≠ [] ∧ ip.all Char.isDigit then some (digitsVal ip : Rat) else none
    | [ip, fp] =>
      if (ip ++ fp) ≠ [] ∧ (ip ++ fp).all Char.isDigit then
        some ((digitsVal ip : Rat) + (digitsVal fp : Rat) / (10 : Rat) ^ fp.length)
      else none
    | _ => none
  val?.map (fun v => if neg then -v else v)

/-- Python `s.startswith('(') and s.endswith(')')` (line 189). -/
def parenWrapped (l : List Char) : Bool :=
  l.head? = some '(' && l.getLast? = some ')'

/-- The cleaned numeric token handed to `float()` by `clean_number`
(lines 182-208 of the source), or `none` on the early `return 0.0` paths:
empty/`"-"`/whitespace-only input, or a post-cleaning residue of
`""`/`"-"`/`"+"`. -/
def numericCandidate (l : List Char) : Option (List Char) :=
  if l = [] ∨ l = ['-'] ∨ pyStrip l = [] then none
  else
    let cleaned := pyStrip l
    let cleaned :=
      if parenWrapped cleaned then '-' :: (cleaned.drop 1).dropLast else cleaned
    let cleaned :=
      match findallRuns cleaned with
      | [] => cleaned
      | p :: _ =>
        let p := collapse p
        if (',' ∈ p) ∧ ¬ ('.' ∈ p) then p.map (fun c => if c = ',' then '.' else c)
        else p
    let cleaned := cleaned.filter (fun c => c.isDigit || c = '.' || c = '-')
    if cleaned = [] ∨ cleaned = ['-'] ∨ cleaned = ['+'] then none
    else some cleaned

/-- The Number Normalizer `clean_number` (source lines 180-213), under the
exact-arithmetic model of Python floats: clean the token, parse it, and
return `0.0` whenever any step fails. -/
def clean_number (num_str : String) : Rat :=
  match numericCandidate num_str.toList with
  | none => 0
  | some c => (pyFloatVal c).getD 0

/-- Result type of CPython `float(s)` honouring double-precision overflow:
a decimal literal whose value reaches the overflow threshold parses to an
infinity instead of raising or producing a finite value. -/
inductive PyFloat where
  | finite (q : Rat)
  | inf
  | ninf
deriving DecidableEq

/-- Smallest positive real that rounds to `+inf` under IEEE-754 binary64
round-to-nearest-even, the rounding used by CPython's `float(str)`:
the midpoint between the largest double `2 ^ 1024 - 2 ^ 971` and `2 ^ 1024`. -/
def ovfThreshold : Rat := ((2 ^ 1024 - 2 ^ 970 : Nat) : Rat)

/-- The Number Normalizer refined with the IEEE-754 overflow behaviour of
CPython `float(str)`: identical to `clean_number` except that a numeric
candidate whose exact value reaches `ovfThreshold` in magnitude yields an
infinity, which is what `float()` returns for such literals. -/
def clean_number_py (num_str : String) : PyFloat :=
  match numericCandidate num_str.toList with
  | none => .finite 0
  | some c =>
    match pyFloatVal c with
    | none => .finite 0
    | some q =>
      if ovfThreshold ≤ q then .inf
      else if q ≤ -ovfThreshold then .ninf
      else .finite q

/-- Longest element of a list of runs, first one among ties.  Modelled from
the spec (section 4.1 step 2): the run the spec says the Number Normalizer
selects as its numeric candidate. -/
def longestRun (rs : List (List Char)) : Option (List Char) :=
  rs.foldl
    (fun best r =>
      match best with
      | none => some r
      | some b => if b.length < r.length then some r else some b)
    none

/-- Modelled from the spec (section 4.1 step 2): a Number Normalizer that
selects the LONGEST maximal run of numeric-class characters as its
candidate, instead of the first one the source code takes; the remaining
pipeline is the source pipeline. -/
def numericCandidateLongest (l : List Char) : Option (List Char) :=
  if l = [] ∨ l = ['-'] ∨ pyStrip l = [] then none
  else
    let cleaned := pyStrip l
    let cleaned :=
      if parenWrapped cleaned then '-' :: (cleaned.drop 1).dropLast else cleaned
    let cleaned :=
      match longestRun (findallRuns cleaned) with
      | none => cleaned
      | some p =>
        let p := collapse p
        if (',' ∈ p) ∧ ¬ ('.' ∈ p) then p.map (fun c => if c = ',' then '.' else c)
        else p
    let cleaned := cleaned.filter (fun c => c.isDigit || c = '.' || c = '-')
    if cleaned = [] ∨ cleaned = ['-'] ∨ cleaned = ['+'] then none
    else some cleaned

/-- Modelled from the spec: `clean_number` with the longest-run candidate
selection the spec describes. -/
def clean_number_longest (num_str : String) : Rat :=
  match numericCandidateLongest num_str.toList with
  | none => 0
  | some c => (pyFloatVal c).getD 0

/-- First element of a list of runs.  Modelled from the spec
(section 4.1 step 2) amended to what the code does: the run the Number
Normalizer actually selects as its numeric candidate is the FIRST maximal
run, `parts[0]` of source line 197, not the longest one. -/
def firstRun (rs : List (List Char)) : Option (List Char) := rs.head?

/-- Modelled from the spec (section 4.1), amended at step 2: the Number
Normalizer pipeline with the FIRST maximal run of numeric-class
characters as candidate; the remaining steps are the spec's steps.
Structured exactly like `numericCandidateLongest`, differing only in the
run selected, so the two readings of the spec can be compared against
the source's `numericCandidate`. -/
def numericCandidateFirst (l : List Char) : Option (List Char) :=
  if l = [] ∨ l = ['-'] ∨ pyStrip l = [] then none
  else
    let cleaned := pyStrip l
    let cleaned :=
      if parenWrapped cleaned then '-' :: (cleaned.drop 1).dropLast else cleaned
    let cleaned :=
      match firstRun (findallRuns cleaned) with
      | none => cleaned
      | some p =>
        let p := collapse p
        if (',' ∈ p) ∧ ¬ ('.' ∈ p) then p.map (fun c => if c = ',' then '.' else c)
        else p
    let cleaned := cleaned.filter (fun c => c.isDigit || c = '.' || c = '-')
    if cleaned = [] ∨ cleaned = ['-'] ∨ cleaned = ['+'] then none
    else some cleaned

/-- Modelled from the spec, amended: `clean_number` with the first-run
candidate selection the code performs. -/
def clean_number_first (num_str : String) : Rat :=
  match numericCandidateFirst num_str.toList with
  | none => 0
  | some c => (pyFloatVal c).getD 0

/-! ## Year-over-Year Analyzer (`oblicz_zmiane_rr`, lines 215-240) -/

/-- Trend classification returned by `oblicz_zmiane_rr`. -/
inductive Trend where
  | wzrost
  | spadek
  | stabilny
  | bez_zmian
  | nowy
deriving DecidableEq

/-- Round-half-to-even on rationals, the tie-breaking rule of Python's
builtin `round`. -/
def roundHalfEven (q : Rat) : Int :=
  let f : Int := ⌊q⌋
  let r : Rat := q - (f : Rat)
  if r < 1 / 2 then f
  else if 1 / 2 < r then f + 1
  else if f % 2 = 0 then f else f + 1

/-- Python `round(q, 2)` under the exact-arithmetic model of floats. -/
def round2 (q : Rat) : Rat :=
  ((roundHalfEven (q * 100) : Int) : Rat) / 100

/-- Year-over-year comparison record returned by `oblicz_zmiane_rr`;
`zmiana_procentowa = none` models the Python `float('inf')` sentinel. -/
structure ZmianaRR where
  zmiana_bezwzgledna : Rat
  zmiana_procentowa : Option Rat
  trend : Trend
deriving DecidableEq

/-- The Year-over-Year Analyzer `oblicz_zmiane_rr` (source lines 215-240).
Note that the trend is classified on the UNROUNDED percentage, while the
stored deltas are rounded to two decimal places. -/
def oblicz_zmiane_rr (obecny poprzedni : Rat) : ZmianaRR :=
  if poprzedni = 0 then
    if obecny = 0 then ⟨0, some 0, .bez_zmian⟩
    else ⟨obecny, none, .nowy⟩
  else
    let zmiana_bezwzgledna := obecny - poprzedni
    let zmiana_procentowa := zmiana_bezwzgledna / |poprzedni| * 100
    let trend : Trend :=
      if zmiana_procentowa > 5 then .wzrost
      else if zmiana_procentowa < -5 then .spadek
      else .stabilny
    ⟨round2 zmiana_bezwzgledna, some (round2 zmiana_procentowa), trend⟩

/-- Modelled from the spec (section 4.4), amended where the code differs
from the spec's words: both stored deltas are rounded to two decimal
places and the trend is classified on the unrounded percentage change. -/
def compareSpecAmended (current prior : Rat) : ZmianaRR :=
  if prior = 0 ∧ current = 0 then ⟨0, some 0, .bez_zmian⟩
  else if prior = 0 then ⟨current, none, .nowy⟩
  else
    let absolute_delta := current - prior
    let percent_delta := absolute_delta / |prior| * 100
    ⟨round2 absolute_delta, some (round2 percent_delta),
      if percent_delta > 5 then .wzrost
      else if percent_delta < -5 then .spadek
      else .stabilny⟩

/-! ## Line-Item Vocabulary (`financial_items_map`, lines 243-290) -/

/-- The ordered label-to-key vocabulary `financial_items_map` of the
source, in its Python dict insertion order. -/
def financial_items_map : List (String × String) := [
  ("Przychody ze sprzedaży", "przychody_sprzedazy"),
  ("Przychody z działalności operacyjnej", "przychody_operacyjne"),
  ("Koszty działalności operacyjnej", "koszty_operacyjne"),
  ("Zysk na działalności operacyjnej", "zysk_operacyjny"),
  ("Zysk (strata) na działalności operacyjnej", "zysk_operacyjny"),
  ("Zysk brutto", "zysk_brutto"),
  ("Zysk (strata) przed opodatkowaniem", "zysk_przed_opodatkowaniem"),
  ("Zysk netto", "zysk_netto"),
  ("Zysk (strata) netto", "zysk_netto"),
  ("Zysk (strata) netto przypadający akcjonariuszom jednostki dominującej", "zysk_netto_akcjonariusze"),
  ("Zysk netto na akcję zwykłą", "zysk_na_akcje"),
  ("Zysk (strata) netto na jedną akcję zwykłą", "zysk_na_akcje"),
  ("Zysk (strata) netto na jedną średnioważoną akcję zwykłą", "zysk_na_akcje_sredniowazona"),
  ("Przepływy pieniężne netto z działalności operacyjnej", "przeplyw_operacyjny"),
  ("Środki pieniężne netto z działalności operacyjnej", "przeplyw_operacyjny"),
  ("Przepływy pieniężne netto z działalności inwestycyjnej", "przeplyw_inwestycyjny"),
  ("Środki pieniężne netto z działalności inwestycyjnej", "przeplyw_inwestycyjny"),
  ("Przepływy pieniężne netto z działalności finansowej", "przeplyw_finansowy"),
  ("Środki pieniężne netto wykorzystane w działalności finansowej", "przeplyw_finansowy"),
  ("Aktywa razem", "aktywa_razem"),
  ("Suma bilansowa", "aktywa_razem"),
  ("Aktywa trwałe", "aktywa_trwale"),
  ("Aktywa obrotowe", "aktywa_obrotowe"),
  ("Zobowiązania razem", "zobowiazania_razem"),
  ("Zobowiązania długoterminowe", "zobowiazania_dlugoterminowe"),
  ("Zobowiązania krótkoterminowe", "zobowiazania_krotkoterminowe"),
  ("W tym: zobowiązania krótkoterminowe", "zobowiazania_krotkoterminowe"),
  ("Kapitał własny", "kapital_wlasny"),
  ("Kapitał podstawowy", "kapital_podstawowy"),
  ("Wyemitowany kapitał akcyjny", "wyemitowany_kapital"),
  ("Liczba akcji w sztukach", "liczba_akcji"),
  ("Liczba akcji (szt.)", "liczba_akcji"),
  ("Średnioważona liczba akcji (w szt.)", "sredniowazona_liczba_akcji"),
  ("Wartość księgowa na akcję", "wartosc_ksiegowa_na_akcje"),
  ("Wartość księgowa na jedną akcję zwykłą", "wartosc_ksiegowa_na_akcje")]

/-- Python dict-style key search: first pair whose label equals the line. -/
def findLabel : List (String × String) → String → Option (String × String)
  | [], _ => none
  | p :: rest, line => if p.1 = line then some p else findLabel rest line

/-- Python `next_line in financial_items_map` (key membership test). -/
def isLabelLine (line : String) : Bool :=
  (findLabel financial_items_map line).isSome

/-- The fixed noise vocabulary of the value lookahead (source line 326). -/
def noiseTokens : List String :=
  ["pln", "eur", "tys", "półrocze", "okres", "w tym:", "dane"]

/-- Python `any(header in next_line.lower() for header in [...])`
(source lines 325-326). -/
def noiseLine (line : String) : Bool :=
  noiseTokens.any (fun kw => containsSub kw.toList (line.toList.map lowerPL))

/-! ## Positional Value Scanner (`ekstraktuj_dane_finansowe`, lines 292-367) -/

/-- Association-list lookup, Python `d.get(k)` on a dict. -/
def lookupA {β : Type} : List (String × β) → String → Option β
  | [], _ => none
  | (k₀, v) :: rest, k => if k₀ = k then some v else lookupA rest k

/-- Association-list store, Python `d[k] = v` on a dict: replace the value
in place when the key exists, otherwise append the new binding. -/
def updateA {β : Type} : List (String × β) → String → β → List (String × β)
  | [], k, v => [(k, v)]
  | (k₀, v₀) :: rest, k, v =>
    if k₀ = k then (k, v) :: rest else (k₀, v₀) :: updateA rest k v

/-- Structured rendering of the `debug_info` diagnostic strings appended
by the scanner (observational only, never consumed by downstream logic). -/
inductive TraceEntry where
  | znaleziono (line key : String)
  | wartosc (line : String) (v : Rat)
  | zapisano (key : String) (obecny poprzedni : Rat) (z : ZmianaRR)
  | pominieto (key : String) (ile : Nat)
deriving DecidableEq

/-- The extraction result dict built by `ekstraktuj_dane_finansowe`. -/
structure DaneFinansowe where
  obecny_okres : List (String × Rat)
  poprzedni_okres : List (String × Rat)
  analiza_rr : List (String × ZmianaRR)
  debug_info : List TraceEntry
deriving DecidableEq

/-- One pass of the value lookahead (source lines 317-344): examine up to
`window` further lines, skipping blank and noise lines (both consume the
window), stopping at a vocabulary label, and accepting cleaned values that
are nonzero or whose raw line is an explicit zero placeholder; stop once
the accumulated values reach 4.  `acc` is the reversed list of values
accepted so far, together with the trace entries emitted. -/
def zbierzAux : Nat → List Rat → List TraceEntry → List String →
    List Rat × List TraceEntry
  | 0, acc, tr, _ => (acc.reverse, tr)
  | _ + 1, acc, tr, [] => (acc.reverse, tr)
  | window + 1, acc, tr, l :: rest =>
    let t := pyStripStr l
    if t = "" then zbierzAux window acc tr rest
    else if noiseLine t then zbierzAux window acc tr rest
    else if isLabelLine t then (acc.reverse, tr)
    else
      let v := clean_number t
      if v ≠ 0 ∨ t = "0" ∨ t = "-" ∨ t = "(0)" then
        let acc' := v :: acc
        let tr' := tr ++ [TraceEntry.wartosc t v]
        if 4 ≤ acc'.length then (acc'.reverse, tr')
        else zbierzAux window acc' tr' rest
      else
        if 4 ≤ acc.length then (acc.reverse, tr)
        else zbierzAux window acc tr rest

/-- Collect the values for one matched label from the following lines:
the loop `for j in range(i + 1, min(i + 5, len(lines)))` of the source. -/
def zbierzWartosci (rest : List String) : List Rat × List TraceEntry :=
  zbierzAux 4 [] [] rest

/-- Handle one matched vocabulary label (source lines 313-363): run the
lookahead, and when at least two values were accepted store the first two
as current and prior period and their year-over-year comparison. -/
def processMatch (key : String) (rest : List String) (d : DaneFinansowe) :
    DaneFinansowe :=
  let vt := zbierzWartosci rest
  match vt.1 with
  | v0 :: v1 :: _ =>
    let z := oblicz_zmiane_rr v0 v1
    { obecny_okres := updateA d.obecny_okres key v0
      poprzedni_okres := updateA d.poprzedni_okres key v1
      analiza_rr := updateA d.analiza_rr key z
      debug_info := d.debug_info ++ vt.2 ++ [TraceEntry.zapisano key v0 v1 z] }
  | vs =>
    { d with debug_info := d.debug_info ++ vt.2 ++ [TraceEntry.pominieto key vs.length] }

/-- The scanner's outer loop (source lines 295-365): strip each line, skip
blanks, try an exact vocabulary match, process a match against the
following lines, and always advance by one line. -/
def scanAux : List String → DaneFinansowe → DaneFinansowe
  | [], d => d
  | l :: rest, d =>
    let line := pyStripStr l
    if line = "" then scanAux rest d
    else
      match findLabel financial_items_map line with
      | some p =>
        scanAux rest
          (processMatch p.2 rest
            { d with debug_info := d.debug_info ++ [TraceEntry.znaleziono line p.2] })
      | none => scanAux rest d

/-- The Positional Value Scanner `ekstraktuj_dane_finansowe`
(source lines 171-367): split the text into lines and scan. -/
def ekstraktuj_dane_finansowe (text : String) : DaneFinansowe :=
  scanAux (splitLines text) ⟨[], [], [], []⟩

/-! ## Input-block slicing (`pobierz_raport_finansowy_espi`, lines 153-155) -/

/-- Opening marker of the selected-financial-data block. -/
def markerStart : String := "WYBRANE DANE FINANSOWE"

/-- Closing marker cutting the block (first occurrence, if any). -/
def markerEnd : String := "INFORMACJA O KOREKCIE RAPORTU"

/-- The slicing expression of source lines 153-155:
`"WYBRANE DANE FINANSOWE\n" + full_text.split("WYBRANE DANE FINANSOWE", 2)[2]
.split("INFORMACJA O KOREKCIE RAPORTU")[0]`.
The `[2]` subscript demands at least two occurrences of the opening
marker; `none` models the `IndexError` the subscript raises otherwise. -/
def dane_finansowe_raw (full_text : String) : Option String :=
  match splitOnceSub markerStart.toList full_text.toList with
  | none => none
  | some p₁ =>
    match splitOnceSub markerStart.toList p₁.2 with
    | none => none
    | some p₂ =>
      let block :=
        match splitOnceSub markerEnd.toList p₂.2 with
        | some q => q.1
        | none => p₂.2
      some (String.mk (markerStart.toList ++ '\n' :: block))

/-- Fuel-indexed count of non-overlapping occurrences of `pat`; with fuel
above the list length it counts every occurrence. -/
def countSubF (pat : List Char) : Nat → List Char → Nat
  | 0, _ => 0
  | fuel + 1, s =>
    match splitOnceSub pat s with
    | none => 0
    | some p => 1 + countSubF pat fuel p.2

/-- Number of non-overlapping occurrences of `pat` in `s`, leftmost-first:
Python `s.count(pat)`. -/
def countSub (pat s : List Char) : Nat :=
  countSubF pat (s.length + 1) s

/-! ## Ratio Calculator (`ekstraktuj_wskazniki_finansowe`, lines 538-665) -/

/-- The inner `to_number` helper (source lines 547-569) as it acts on the
float values stored by the scanner: `None` and `0.0` (both falsy) map to
`None`, and any other stored float comes back unchanged, because the
cleaning round-trips the plain decimal rendering `str(value)` of the
float.  (Floats whose `str` uses scientific notation never arise from the
metric values these dicts hold in the modelled flows.) -/
def to_number (v : Option Rat) : Option Rat :=
  match v with
  | none => none
  | some x => if x = 0 then none else some x

/-- Ratio guarded by a strictly positive denominator, the shape
`if a is not None and b is not None and b > 0` of the source. -/
def ratioPos (a b : Option Rat) (f : Rat → Rat → Rat) : Option Rat :=
  match a, b with
  | some x, some y => if 0 < y then some (f x y) else none
  | _, _ => none

/-- Ratio guarded by a merely nonzero denominator, the shape
`if a is not None and b is not None and b != 0` used by the revenue,
net-profit and operating-profit growth ratios. -/
def ratioNZ (a b : Option Rat) (f : Rat → Rat → Rat) : Option Rat :=
  match a, b with
  | some x, some y => if y ≠ 0 then some (f x y) else none
  | _, _ => none

/-- The net-margin year-over-year change (source lines 654-660), guarded
by both revenue figures being present and strictly positive. -/
def marzaDelta (zn p znp pp : Option Rat) : Option Rat :=
  match zn, p, znp, pp with
  | some a, some b, some c, some d =>
    if 0 < b ∧ 0 < d then some (a / b * 100 - c / d * 100) else none
  | _, _, _, _ => none

/-- Drop the suppressed entries: each ratio is added to the output dict
only when its guard produced a value. -/
def optEntries : List (String × Option Rat) → List (String × Rat)
  | [] => []
  | (n, some v) :: rest => (n, v) :: optEntries rest
  | (_, none) :: rest => optEntries rest

/-- The Ratio Calculator `ekstraktuj_wskazniki_finansowe`
(source lines 538-665) over the two period dicts.  Values are kept as
exact rationals; the source additionally renders each one as a formatted
string, which the claims do not touch.  The enclosing `try/except` of the
source is dead under these guards (no guarded arithmetic raises), so no
`error` entry is modelled.  Note the misspelt key
`zobowiazania_krotkotermindowe` read for the current-ratio denominator,
copied verbatim from source line 593. -/
def ekstraktuj_wskazniki_finansowe (obecny poprzedni : List (String × Rat)) :
    List (String × Rat) :=
  let g := fun (m : List (String × Rat)) (k : String) => to_number (lookupA m k)
  let zysk_netto := g obecny "zysk_netto"
  let przychody := g obecny "przychody_sprzedazy"
  let zysk_operacyjny := g obecny "zysk_operacyjny"
  let zysk_brutto := g obecny "zysk_brutto_sprzedazy"
  let aktywa_obrotowe := g obecny "aktywa_obrotowe"
  let zobowiazania_kr := g obecny "zobowiazania_krotkotermindowe"
  let zobowiazania := g obecny "zobowiazania_razem"
  let aktywa := g obecny "aktywa_razem"
  let kapital_wlasny := g obecny "kapital_wlasny"
  let przychody_poprz := g poprzedni "przychody_sprzedazy"
  let zysk_netto_poprz := g poprzedni "zysk_netto"
  let zysk_op_poprz := g poprzedni "zysk_operacyjny"
  let aktywa_poprz := g poprzedni "aktywa_razem"
  let kapital_poprz := g poprzedni "kapital_wlasny"
  optEntries [
    ("rentownosc_netto", ratioPos zysk_netto przychody (fun z p => z / p * 100)),
    ("rentownosc_operacyjna", ratioPos zysk_operacyjny przychody (fun z p => z / p * 100)),
    ("marza_brutto", ratioPos zysk_brutto przychody (fun z p => z / p * 100)),
    ("plynnosc_biezaca", ratioPos aktywa_obrotowe zobowiazania_kr (fun a z => a / z)),
    ("wskaznik_zadluzenia", ratioPos zobowiazania aktywa (fun z a => z / a * 100)),
    ("roe", ratioPos zysk_netto kapital_wlasny (fun z k => z / k * 100)),
    ("roa", ratioPos zysk_netto aktywa (fun z a => z / a * 100)),
    ("wzrost_przychodow", ratioNZ przychody przychody_poprz (fun x y => (x - y) / |y| * 100)),
    ("wzrost_zysku_netto", ratioNZ zysk_netto zysk_netto_poprz (fun x y => (x - y) / |y| * 100)),
    ("wzrost_zysku_operacyjnego", ratioNZ zysk_operacyjny zysk_op_poprz (fun x y => (x - y) / |y| * 100)),
    ("wzrost_aktywow", ratioPos aktywa aktywa_poprz (fun x y => (x - y) / y * 100)),
    ("wzrost_kapitalu_wlasnego", ratioPos kapital_wlasny kapital_poprz (fun x y => (x - y) / y * 100)),
    ("zmiana_marzy_netto", marzaDelta zysk_netto przychody zysk_netto_poprz przychody_poprz)]

/-- Requirement that claim C3 (amended) attaches to each ratio appearing
in the calculator's output: all the metric keys it reads are present with
nonzero values, and its denominator satisfies the guard the code applies
to it — strictly positive everywhere except the three growth ratios that
only demand a nonzero prior figure. -/
def wymaganyWarunek (obecny poprzedni : List (String × Rat)) : String → Prop
  | "rentownosc_netto" =>
    (to_number (lookupA obecny "zysk_netto")).isSome ∧
      ∃ y, to_number (lookupA obecny "przychody_sprzedazy") = some y ∧ 0 < y
  | "rentownosc_operacyjna" =>
    (to_number (lookupA obecny "zysk_operacyjny")).isSome ∧
      ∃ y, to_number (lookupA obecny "przychody_sprzedazy") = some y ∧ 0 < y
  | "marza_brutto" =>
    (to_number (lookupA obecny "zysk_brutto_sprzedazy")).isSome ∧
      ∃ y, to_number (lookupA obecny "przychody_sprzedazy") = some y ∧ 0 < y
  | "plynnosc_biezaca" =>
    (to_number (lookupA obecny "aktywa_obrotowe")).isSome ∧
      ∃ y, to_number (lookupA obecny "zobowiazania_krotkotermindowe") = some y ∧ 0 < y
  | "wskaznik_zadluzenia" =>
    (to_number (lookupA obecny "zobowiazania_razem")).isSome ∧
      ∃ y, to_number (lookupA obecny "aktywa_razem") = some y ∧ 0 < y
  | "roe" =>
    (to_number (lookupA obecny "zysk_netto")).isSome ∧
      ∃ y, to_number (lookupA obecny "kapital_wlasny") = some y ∧ 0 < y
  | "roa" =>
    (to_number (lookupA obecny "zysk_netto")).isSome ∧
      ∃ y, to_number (lookupA obecny "aktywa_razem") = some y ∧ 0 < y
  | "wzrost_przychodow" =>
    (to_number (lookupA obecny "przychody_sprzedazy")).isSome ∧
      ∃ y, to_number (lookupA poprzedni "przychody_sprzedazy") = some y ∧ y ≠ 0
  | "wzrost_zysku_netto" =>
    (to_number (lookupA obecny "zysk_netto")).isSome ∧
      ∃ y, to_number (lookupA poprzedni "zysk_netto") = some y ∧ y ≠ 0
  | "wzrost_zysku_operacyjnego" =>
    (to_number (lookupA obecny "zysk_operacyjny")).isSome ∧
      ∃ y, to_number (lookupA poprzedni "zysk_operacyjny") = some y ∧ y ≠ 0
  | "wzrost_aktywow" =>
    (to_number (lookupA obecny "aktywa_razem")).isSome ∧
      ∃ y, to_number (lookupA poprzedni "aktywa_razem") = some y ∧ 0 < y
  | "wzrost_kapitalu_wlasnego" =>
    (to_number (lookupA obecny "kapital_wlasny")).isSome ∧
      ∃ y, to_number (lookupA poprzedni "kapital_wlasny") = some y ∧ 0 < y
  | "zmiana_marzy_netto" =>
    (to_number (lookupA obecny "zysk_netto")).isSome ∧
      (to_number (lookupA poprzedni "zysk_netto")).isSome ∧
      (∃ y, to_number (lookupA obecny "przychody_sprzedazy") = some y ∧ 0 < y) ∧
      ∃ y, to_number (lookupA poprzedni "przychody_sprzedazy") = some y ∧ 0 < y
  | _ => False

/-- Invariant preserved by the scanner: any key of the comparison dict is
a key of both period dicts. -/
def okresowaSpojnosc (d : DaneFinansowe) : Prop :=
  ∀ k, (lookupA d.analiza_rr k).isSome →
    (lookupA d.obecny_okres k).isSome ∧ (lookupA d.poprzedni_okres k).isSome

/-! ## Helper lemmas -/

theorem lookupA_updateA_self {β : Type} (m : List (String × β)) (k : String) (v : β) :
    lookupA (updateA m k v) k = some v := by
  induction m with
  | nil => simp [updateA, lookupA]
  | cons p rest ih =>
    obtain ⟨k₀, v₀⟩ := p
    by_cases h : k₀ = k
    · simp [updateA, h, lookupA]
    · simp [updateA, h, lookupA, ih]

theorem lookupA_updateA_ne {β : Type} (m : List (String × β)) (k k' : String) (v : β)
    (h : k' ≠ k) : lookupA (updateA m k v) k' = lookupA m k' := by
  induction m with
  | nil => simp [updateA, lookupA, Ne.symm h]
  | cons p rest ih =>
    obtain ⟨k₀, v₀⟩ := p
    by_cases hk : k₀ = k
    · subst hk
      simp [updateA, lookupA, Ne.symm h]
    · simp [updateA, hk, lookupA, ih]

theorem findLabel_mem {l : List (String × String)} {s : String} {p : String × String}
    (h : findLabel l s = some p) : p ∈ l := by
  induction l with
  | nil => simp [findLabel] at h
  | cons q rest ih =>
    simp only [findLabel] at h
    split at h
    · cases h
      exact List.mem_cons_self _ _
    · exact List.mem_cons_of_mem _ (ih h)

theorem lookupA_optEntries_none {l : List (String × Option Rat)} {k : String}
    (h : ∀ p ∈ l, p.1 = k → p.2 = none) : lookupA (optEntries l) k = none := by
  induction l with
  | nil => simp [optEntries, lookupA]
  | cons p rest ih =>
    obtain ⟨n, o⟩ := p
    cases o with
    | none =>
      exact (by
        simp only [optEntries]
        exact ih (fun q hq => h q (List.mem_cons_of_mem _ hq)))
    | some x =>
      have hn : n ≠ k := by
        intro hnk
        have := h (n, some x) (List.mem_cons_self _ _) hnk
        simp at this
      simp only [optEntries, lookupA]
      rw [if_neg hn]
      exact ih (fun q hq => h q (List.mem_cons_of_mem _ hq))

theorem lookupA_optEntries_some {l : List (String × Option Rat)} {k : String} {v : Rat}
    (h : lookupA (optEntries l) k = some v) : (k, some v) ∈ l := by
  induction l with
  | nil => simp [optEntries, lookupA] at h
  | cons p rest ih =>
    obtain ⟨n, o⟩ := p
    cases o with
    | none =>
      simp only [optEntries] at h
      exact List.mem_cons_of_mem _ (ih h)
    | some x =>
      simp only [optEntries, lookupA] at h
      by_cases hn : n = k
      · subst hn
        rw [if_pos rfl] at h
        cases h
        exact List.mem_cons_self _ _
      · rw [if_neg hn] at h
        exact List.mem_cons_of_mem _ (ih h)

theorem ratioPos_eq_some {a b : Option Rat} {f : Rat → Rat → Rat} {v : Rat}
    (h : ratioPos a b f = some v) : a.isSome ∧ ∃ y, b = some y ∧ 0 < y := by
  cases a with
  | none => simp [ratioPos] at h
  | some x =>
    cases b with
    | none => simp [ratioPos] at h
    | some y =>
      by_cases hy : 0 < y
      · exact ⟨rfl, y, rfl, hy⟩
      · simp [ratioPos, hy] at h

theorem ratioNZ_eq_some {a b : Option Rat} {f : Rat → Rat → Rat} {v : Rat}
    (h : ratioNZ a b f = some v) : a.isSome ∧ ∃ y, b = some y ∧ y ≠ 0 := by
  cases a with
  | none => simp [ratioNZ] at h
  | some x =>
    cases b with
    | none => simp [ratioNZ] at h
    | some y =>
      by_cases hy : y ≠ 0
      · exact ⟨rfl, y, rfl, hy⟩
      · simp [ratioNZ, hy] at h

theorem marzaDelta_eq_some {zn p znp pp : Option Rat} {v : Rat}
    (h : marzaDelta zn p znp pp = some v) :
    zn.isSome ∧ znp.isSome ∧ (∃ y, p = some y ∧ 0 < y) ∧ ∃ y, pp = some y ∧ 0 < y := by
  cases zn with
  | none => simp [marzaDelta] at h
  | some a =>
    cases p with
    | none => simp [marzaDelta] at h
    | some b =>
      cases znp with
      | none => simp [marzaDelta] at h
      | some c =>
        cases pp with
        | none => simp [marzaDelta] at h
        | some d =>
          by_cases hbd : 0 < b ∧ 0 < d
          · exact ⟨rfl, rfl, ⟨b, rfl, hbd.1⟩, d, rfl, hbd.2⟩
          · simp [marzaDelta, hbd] at h

theorem ratioPos_none_right {a : Option Rat} {f : Rat → Rat → Rat} :
    ratioPos a none f = none := by
  cases a <;> rfl

theorem processMatch_spojnosc {key : String} {rest : List String} {d : DaneFinansowe}
    (h : okresowaSpojnosc d) : okresowaSpojnosc (processMatch key rest d) := by
  simp only [processMatch]
  rcases h1 : (zbierzWartosci rest).1 with _ | ⟨v0, _ | ⟨v1, tl⟩⟩ <;> simp only [h1]
  · exact h
  · exact h
  · intro k hk
    by_cases hkey : k = key
    · subst hkey
      constructor <;> simp [lookupA_updateA_self]
    · simp only [lookupA_updateA_ne _ _ _ _ hkey] at hk ⊢
      exact h k hk

theorem scanAux_spojnosc :
    ∀ (ls : List String) (d : DaneFinansowe),
      okresowaSpojnosc d → okresowaSpojnosc (scanAux ls d) := by
  intro ls
  induction ls with
  | nil => intro d h; exact h
  | cons l rest ih =>
    intro d h
    simp only [scanAux]
    split
    · exact ih d h
    · split
      · exact ih _ (processMatch_spojnosc h)
      · exact ih d h

/-- Claim C1: on the 8-line synthetic block the extraction yields exactly
`current = (przychody_sprzedazy ↦ 1000000, zysk_netto ↦ 150000)`,
`prior = (przychody_sprzedazy ↦ 800000, zysk_netto ↦ 120000)`, and the
`zysk_netto` comparison has absolute delta 30000, percent delta 25 and
trend `wzrost` (growth). -/
theorem C1_synthetic_block_extraction :
    (ekstraktuj_dane_finansowe
        "Przychody ze sprzedaży\n1 000 000\n800 000\n100 000\n90 000\nZysk netto\n150 000\n120 000").obecny_okres
      = [("przychody_sprzedazy", 1000000), ("zysk_netto", 150000)] ∧
    (ekstraktuj_dane_finansowe
        "Przychody ze sprzedaży\n1 000 000\n800 000\n100 000\n90 000\nZysk netto\n150 000\n120 000").poprzedni_okres
      = [("przychody_sprzedazy", 800000), ("zysk_netto", 120000)] ∧
    lookupA (ekstraktuj_dane_finansowe
        "Przychody ze sprzedaży\n1 000 000\n800 000\n100 000\n90 000\nZysk netto\n150 000\n120 000").analiza_rr
      "zysk_netto" = some ⟨30000, some 25, Trend.wzrost⟩ := by
  refine ⟨by decide, by decide, by decide⟩

/-- Claim C2, counterexample: at `current = 1050.011`, `prior = 1000` the
unrounded percent change is 5.0011, so the code returns trend `wzrost`
(growth) even though the returned (rounded) percent delta is exactly 5,
which is not greater than 5; moreover the returned absolute delta is the
rounded 50.01, not `current - prior = 50.011`.  Both contradict the claim,
which derives the trend from the returned percent delta and leaves the
absolute delta unrounded. -/
theorem C2_counterexample :
    oblicz_zmiane_rr (1050011 / 1000) 1000
        = ⟨5001 / 100, some 5, Trend.wzrost⟩ ∧
      ¬ ((5 : Rat) > 5) ∧
      (5001 / 100 : Rat) ≠ 1050011 / 1000 - 1000 := by
  refine ⟨by decide, by decide, by decide⟩

/-- Claim C2, amended: `oblicz_zmiane_rr` agrees with the spec's reference
comparison once that reference rounds the absolute delta too and
classifies the trend on the UNROUNDED percent change (growth above 5,
decline below -5, else stable); the degenerate `prior = 0` cases are as
the claim states them. -/
theorem C2_amended_compare_matches_spec (c p : Rat) :
    oblicz_zmiane_rr c p = compareSpecAmended c p := by
  unfold oblicz_zmiane_rr compareSpecAmended
  by_cases hp : p = 0 <;> by_cases hc : c = 0 <;> simp [hp, hc]

/-- Claim C3, counterexample: with current revenue 100 and prior revenue
-100 the calculator still emits `wzrost_przychodow` (the revenue growth
ratio), although its denominator metric, the prior revenue, is negative:
the growth-ratio guards only demand a nonzero prior, so a non-positive
denominator does not suppress every ratio as the claim states. -/
theorem C3_counterexample :
    lookupA
        (ekstraktuj_wskazniki_finansowe
          [("przychody_sprzedazy", 100)] [("przychody_sprzedazy", -100)])
        "wzrost_przychodow" = some 200 ∧
      ¬ (0 : Rat) < -100 := by
  refine ⟨by decide, by decide⟩

/-- Claim C5, counterexample: on the token `"x1y123 456"` the maximal
numeric-class runs are `"1"` and the longer `"123 456"`; the spec-modelled
longest-run normalizer yields 123456, but the code takes the FIRST run and
yields 1. -/
theorem C5_counterexample :
    clean_number "x1y123 456" = 1 ∧
      clean_number_longest "x1y123 456" = 123456 ∧
      (1 : Rat) ≠ 123456 := by
  refine ⟨by decide, by decide, by decide⟩

/-- Claim C6, counterexample: the 310-digit token `1` followed by 309
zeros parses to `10 ^ 309`, which exceeds the double-precision overflow
threshold, so CPython's `float()` — and hence `clean_number` — returns
`inf`, not a finite value. -/
theorem C6_counterexample :
    clean_number_py (String.mk ('1' :: List.replicate 309 '0')) = PyFloat.inf := by
  decide

/-- Claim C7: the whitespace-grouped token `"921 703"` normalizes to
921703 and the parenthesized comma-decimal token `"(1 234,5)"` normalizes
to -1234.5. -/
theorem C7_thousands_and_paren_tokens :
    clean_number "921 703" = 921703 ∧ clean_number "(1 234,5)" = -1234.5 := by
  refine ⟨by decide, by decide⟩

/-- Claim C8, counterexample: after the label `Zysk netto`, three blank
lines followed by the values 100 and 200 leave the metric unextracted,
because blank lines consume the 4-line window (the window is 4 LINES, not
4 non-blank lines); without the blanks the same values are extracted. -/
theorem C8_counterexample :
    lookupA (ekstraktuj_dane_finansowe "Zysk netto\n\n\n\n100\n200").obecny_okres
        "zysk_netto" = none ∧
      lookupA (ekstraktuj_dane_finansowe "Zysk netto\n100\n200").obecny_okres
        "zysk_netto" = some 100 := by
  refine ⟨by decide, by decide⟩

/-- Claim C3, amended: every ratio entry present in the calculator's
output was computed with all its required metric keys present (with
nonzero stored values, since a stored `0.0` is treated as missing) and
with its denominator guard satisfied: strictly positive for every ratio
EXCEPT the revenue, net-profit and operating-profit year-over-year growth
ratios, which the code guards only by a nonzero prior-period figure. -/
theorem C3_amended_ratio_guards (ob pp : List (String × Rat)) (k : String) (v : Rat)
    (h : lookupA (ekstraktuj_wskazniki_finansowe ob pp) k = some v) :
    wymaganyWarunek ob pp k := by
  simp only [ekstraktuj_wskazniki_finansowe] at h
  have hmem := lookupA_optEntries_some h
  simp only [List.mem_cons, List.not_mem_nil, or_false, Prod.mk.injEq] at hmem
  rcases hmem with ⟨hk, hv⟩ | ⟨hk, hv⟩ | ⟨hk, hv⟩ | ⟨hk, hv⟩ | ⟨hk, hv⟩ | ⟨hk, hv⟩ |
    ⟨hk, hv⟩ | ⟨hk, hv⟩ | ⟨hk, hv⟩ | ⟨hk, hv⟩ | ⟨hk, hv⟩ | ⟨hk, hv⟩ | ⟨hk, hv⟩ <;> subst hk
  · exact ratioPos_eq_some hv.symm
  · exact ratioPos_eq_some hv.symm
  · exact ratioPos_eq_some hv.symm
  · exact ratioPos_eq_some hv.symm
  · exact ratioPos_eq_some hv.symm
  · exact ratioPos_eq_some hv.symm
  · exact ratioPos_eq_some hv.symm
  · exact ratioNZ_eq_some hv.symm
  · exact ratioNZ_eq_some hv.symm
  · exact ratioNZ_eq_some hv.symm
  · exact ratioPos_eq_some hv.symm
  · exact ratioPos_eq_some hv.symm
  · exact marzaDelta_eq_some hv.symm

/-- Witness for C3 (amended) at a concrete input: net profit 50 and
revenue 100 put `rentownosc_netto` in the output, and the guard holds. -/
theorem C3_amended_ratio_guards_witness :
    wymaganyWarunek [("zysk_netto", 50), ("przychody_sprzedazy", 100)] []
      "rentownosc_netto" :=
  C3_amended_ratio_guards [("zysk_netto", 50), ("przychody_sprzedazy", 100)] []
    "rentownosc_netto" 50 (by decide)

/-- Claim C9: a metric key present in the comparison mapping `analiza_rr`
is present in both the current-period and the prior-period mapping, for
every input text. -/
theorem C9_comparisons_require_both_periods (text k : String)
    (h : (lookupA (ekstraktuj_dane_finansowe text).analiza_rr k).isSome) :
    (lookupA (ekstraktuj_dane_finansowe text).obecny_okres k).isSome ∧
      (lookupA (ekstraktuj_dane_finansowe text).poprzedni_okres k).isSome := by
  have h0 : okresowaSpojnosc (⟨[], [], [], []⟩ : DaneFinansowe) := by
    intro k hk
    simp [lookupA] at hk
  exact scanAux_spojnosc _ _ h0 k h

/-- Witness for C9 at a concrete input text and key. -/
theorem C9_comparisons_require_both_periods_witness :
    (lookupA (ekstraktuj_dane_finansowe "Zysk netto\n150 000\n120 000").obecny_okres
        "zysk_netto").isSome ∧
      (lookupA (ekstraktuj_dane_finansowe "Zysk netto\n150 000\n120 000").poprzedni_okres
        "zysk_netto").isSome :=
  C9_comparisons_require_both_periods "Zysk netto\n150 000\n120 000" "zysk_netto"
    (by decide)

theorem processMatch_obecny_ne {key k : String} {rest : List String} {d : DaneFinansowe}
    (hne : key ≠ k) (h : lookupA d.obecny_okres k = none) :
    lookupA (processMatch key rest d).obecny_okres k = none := by
  simp only [processMatch]
  rcases h1 : (zbierzWartosci rest).1 with _ | ⟨v0, _ | ⟨v1, tl⟩⟩ <;> simp only [h1]
  · exact h
  · exact h
  · rw [lookupA_updateA_ne _ _ _ _ (Ne.symm hne)]
    exact h

theorem scanAux_obecny_keeps_none {k : String}
    (hk : ∀ p ∈ financial_items_map, p.2 ≠ k) :
    ∀ (ls : List String) (d : DaneFinansowe),
      lookupA d.obecny_okres k = none →
      lookupA (scanAux ls d).obecny_okres k = none := by
  intro ls
  induction ls with
  | nil => intro d h; exact h
  | cons l rest ih =>
    intro d h
    simp only [scanAux]
    split
    · exact ih d h
    · split
      · rename_i p heq
        exact ih _ (processMatch_obecny_ne (hk p (findLabel_mem heq)) h)
      · exact ih d h

theorem ekstraktuj_typo_missing (text : String) :
    lookupA (ekstraktuj_dane_finansowe text).obecny_okres
      "zobowiazania_krotkotermindowe" = none := by
  unfold ekstraktuj_dane_finansowe
  exact scanAux_obecny_keeps_none (by decide) _ _ (by simp [lookupA])

/-- Claim C10: on every scanner-produced pair of period mappings the Ratio
Calculator never emits `plynnosc_biezaca`, because it reads the
short-term-liabilities denominator under the misspelt key
`zobowiazania_krotkotermindowe` while the vocabulary only stores
`zobowiazania_krotkoterminowe`, so the denominator is always absent. -/
theorem C10_plynnosc_biezaca_never_emitted (text : String) :
    lookupA
      (ekstraktuj_wskazniki_finansowe (ekstraktuj_dane_finansowe text).obecny_okres
        (ekstraktuj_dane_finansowe text).poprzedni_okres) "plynnosc_biezaca" = none := by
  have htypo := ekstraktuj_typo_missing text
  simp only [ekstraktuj_wskazniki_finansowe]
  apply lookupA_optEntries_none
  intro p hp
  simp only [List.mem_cons, List.not_mem_nil, or_false] at hp
  rcases hp with h | h | h | h | h | h | h | h | h | h | h | h | h <;> subst h <;>
    intro hname
  · simp at hname
  · simp at hname
  · simp at hname
  · rw [htypo]
    exact ratioPos_none_right
  · simp at hname
  · simp at hname
  · simp at hname
  · simp at hname
  · simp at hname
  · simp at hname
  · simp at hname
  · simp at hname
  · simp at hname

/-- Claim C4, counterexample: on a page where the section heading
`WYBRANE DANE FINANSOWE` occurs only once, the slicing
`full_text.split("WYBRANE DANE FINANSOWE", 2)[2]` fails (the `none` here
models the `IndexError` that the `[2]` subscript raises), so the
extraction raises instead of returning an empty result. -/
theorem C4_counterexample :
    dane_finansowe_raw "WYBRANE DANE FINANSOWE\nZysk netto\n100\n200" = none := by
  decide

theorem splitOnceSub_snd_length_lt {pat : List Char} (hp : pat ≠ []) :
    ∀ {s a b : List Char}, splitOnceSub pat s = some (a, b) → b.length < s.length := by
  intro s
  induction s with
  | nil => intro a b h; simp [splitOnceSub] at h
  | cons c rest ih =>
    intro a b h
    simp only [splitOnceSub] at h
    split at h
    · injection h with h
      rw [Prod.mk.injEq] at h
      obtain ⟨-, hb⟩ := h
      subst hb
      cases pat with
      | nil => exact absurd rfl hp
      | cons p ps => simp only [List.length_drop, List.length_cons]; omega
    · cases hs : splitOnceSub pat rest with
      | none => rw [hs] at h; simp at h
      | some q =>
        rw [hs] at h
        obtain ⟨a', b'⟩ := q
        simp only [Option.map_some'] at h
        injection h with h
        rw [Prod.mk.injEq] at h
        obtain ⟨-, hb⟩ := h
        subst hb
        exact Nat.lt_trans (ih hs) (by simp)

/-- Claim C4, amended: the extraction never returns an empty result on a
page with missing or malformed delimiting markers — when the heading
`WYBRANE DANE FINANSOWE` occurs fewer than twice in the page text the
slicing `split("WYBRANE DANE FINANSOWE", 2)[2]` raises `IndexError`
(modelled as `none`); only with at least two occurrences is a block
produced and handed to the extraction. -/
theorem C4_amended_marker_slicing (t : String) :
    dane_finansowe_raw t = none ↔ countSub markerStart.toList t.toList < 2 := by
  unfold dane_finansowe_raw countSub
  simp only [String.toList]
  cases h1 : splitOnceSub markerStart.data t.data with
  | none => simp [countSubF, h1]
  | some p =>
    obtain ⟨a, b⟩ := p
    have hb : b.length < t.data.length :=
      splitOnceSub_snd_length_lt (by decide) h1
    obtain ⟨m, hm⟩ : ∃ m, t.data.length = m + 1 := ⟨t.data.length - 1, by omega⟩
    rw [hm]
    simp only [countSubF, h1]
    cases h2 : splitOnceSub markerStart.data b with
    | none => simp [countSubF, h2]
    | some q =>
      refine iff_of_false (by simp [countSubF, h2]) ?_
      simp only [countSubF, h2]
      omega

/-- Witness for C4 (amended) at a concrete input without the heading. -/
theorem C4_amended_marker_slicing_witness :
    dane_finansowe_raw "Raport biezacy" = none :=
  (C4_amended_marker_slicing "Raport biezacy").mpr (by decide)

theorem zbierzAux_take (n : Nat) :
    ∀ (acc : List Rat) (tr : List TraceEntry) (ls : List String),
      zbierzAux n acc tr ls = zbierzAux n acc tr (ls.take n) := by
  induction n with
  | zero => intro acc tr ls; rfl
  | succ n ih =>
    intro acc tr ls
    cases ls with
    | nil => rfl
    | cons l rest =>
      simp only [List.take_succ_cons, zbierzAux]
      split_ifs <;> first | rfl | apply ih

theorem zbierzAux_length_le (n : Nat) :
    ∀ (acc : List Rat) (tr : List TraceEntry) (ls : List String),
      acc.length ≤ 3 → (zbierzAux n acc tr ls).1.length ≤ 4 := by
  induction n with
  | zero =>
    intro acc tr ls h
    simp only [zbierzAux, List.length_reverse]
    omega
  | succ n ih =>
    intro acc tr ls h
    cases ls with
    | nil => simp only [zbierzAux, List.length_reverse]; omega
    | cons l rest =>
      simp only [zbierzAux]
      split_ifs with h1 h2 h3 h4 h5 h6
      · exact ih _ _ _ h
      · exact ih _ _ _ h
      · simp only [List.length_reverse]; omega
      · simp only [List.length_reverse, List.length_cons]; omega
      · apply ih
        simp only [List.length_cons] at h5 ⊢
        omega
      · simp only [List.length_reverse]; omega
      · exact ih _ _ _ h

/-- Claim C8, amended: the value lookahead examines at most the 4 lines
immediately following the matched label — blank and noise lines consume
the window — stopping early at a vocabulary label or after collecting 4
values; consequently its behaviour only depends on those 4 lines, and it
never accepts more than 4 values. -/
theorem C8_amended_window (ls : List String) :
    zbierzWartosci ls = zbierzWartosci (ls.take 4) ∧
      (zbierzWartosci ls).1.length ≤ 4 :=
  ⟨zbierzAux_take 4 [] [] ls, zbierzAux_length_le 4 [] [] ls (by simp)⟩

theorem pyStrip_all_ws {l : List Char} (h : ∀ c ∈ l, isWS c = true) :
    pyStrip l = [] := by
  have h1 : l.dropWhile isWS = [] := List.dropWhile_eq_nil_iff.mpr h
  simp [pyStrip, dropTrailingWS, h1]

theorem ovfThreshold_pos : 0 < ovfThreshold := by
  unfold ovfThreshold
  have : (2 : Nat) ^ 970 < 2 ^ 1024 := Nat.pow_lt_pow_right (by norm_num) (by norm_num)
  exact_mod_cast Nat.sub_pos_of_lt this

/-- Claim C6, amended: the Number Normalizer is total — whitespace-only
and `"-"` placeholders and any parse failure yield `0.0` — and every
finite result is below the double-precision overflow threshold; but a
numeric candidate whose exact decimal value reaches that threshold
(about 1.8e308) makes `float()` return an infinity instead of a finite
value. -/
theorem C6_amended_total_with_overflow (s : String) :
    ((∀ c ∈ s.toList, isWS c = true) → clean_number_py s = .finite 0) ∧
      (s = "-" → clean_number_py s = .finite 0) ∧
      (∀ c, numericCandidate s.toList = some c → pyFloatVal c = none →
        clean_number_py s = .finite 0) ∧
      (∀ q, clean_number_py s = .finite q → |q| < ovfThreshold) ∧
      ((clean_number_py s = .inf ∨ clean_number_py s = .ninf) →
        ∃ c q, numericCandidate s.toList = some c ∧ pyFloatVal c = some q ∧
          ovfThreshold ≤ |q|) := by
  refine ⟨?_, ?_, ?_, ?_, ?_⟩
  · intro hws
    have hstrip : pyStrip s.data = [] := pyStrip_all_ws hws
    have hc : numericCandidate s.data = none := by
      unfold numericCandidate
      rw [if_pos (Or.inr (Or.inr hstrip))]
    unfold clean_number_py
    simp only [String.toList, hc]
  · intro h
    subst h
    decide
  · intro c hc hn
    unfold clean_number_py
    simp only [String.toList] at hc ⊢
    simp only [hc, hn]
  · intro q hq
    unfold clean_number_py at hq
    simp only [String.toList] at hq
    cases hcand : numericCandidate s.data with
    | none =>
      simp only [hcand] at hq
      injection hq with hq
      subst hq
      simpa using ovfThreshold_pos
    | some c =>
      simp only [hcand] at hq
      cases hp : pyFloatVal c with
      | none =>
        simp only [hp] at hq
        injection hq with hq
        subst hq
        simpa using ovfThreshold_pos
      | some x =>
        simp only [hp] at hq
        by_cases hle : ovfThreshold ≤ x
        · rw [if_pos hle] at hq
          simp at hq
        · rw [if_neg hle] at hq
          by_cases hge : x ≤ -ovfThreshold
          · rw [if_pos hge] at hq
            simp at hq
          · rw [if_neg hge] at hq
            injection hq with hq
            subst hq
            rw [abs_lt]
            constructor <;> [linarith; linarith]
  · intro hinf
    unfold clean_number_py at hinf
    simp only [String.toList] at hinf ⊢
    cases hcand : numericCandidate s.data with
    | none => simp only [hcand] at hinf; rcases hinf with h | h <;> simp at h
    | some c =>
      simp only [hcand] at hinf
      cases hp : pyFloatVal c with
      | none => simp only [hp] at hinf; rcases hinf with h | h <;> simp at h
      | some x =>
        simp only [hp] at hinf
        refine ⟨c, x, rfl, hp, ?_⟩
        by_cases hle : ovfThreshold ≤ x
        · exact le_trans hle (le_abs_self x)
        · rw [if_neg hle] at hinf
          by_cases hge : x ≤ -ovfThreshold
          · calc ovfThreshold ≤ -x := by linarith
              _ ≤ |x| := neg_le_abs x
          · rw [if_neg hge] at hinf
            rcases hinf with h | h <;> simp at h

/-- Witness for C6 (amended) at concrete placeholder inputs. -/
theorem C6_amended_total_with_overflow_witness :
    clean_number_py " " = .finite 0 ∧ clean_number_py "-" = .finite 0 :=
  ⟨(C6_amended_total_with_overflow " ").1 (by decide),
    (C6_amended_total_with_overflow "-").2.1 rfl⟩


theorem isWS_false_of_isDigit {c : Char} (h : c.isDigit = true) : isWS c = false := by
  by_contra hw
  rw [Bool.not_eq_false] at hw
  unfold isWS at hw
  simp [Char.isWhitespace] at hw
  rcases hw with ((rfl | rfl) | rfl) | rfl <;> exact absurd h (by decide)

theorem isNumClass_of_isDigit {c : Char} (h : c.isDigit = true) : isNumClass c = true := by
  simp [isNumClass, h]

theorem collapseF_digits (f : Nat) :
    ∀ ds : List Char, (∀ c ∈ ds, c.isDigit = true) → collapseF f ds = ds := by
  induction f with
  | zero => intro ds h; rfl
  | succ f ih =>
    intro ds h
    cases ds with
    | nil => rfl
    | cons c rest =>
      have hc : c.isDigit = true := h c (List.mem_cons_self _ _)
      have hrest : ∀ x ∈ rest, x.isDigit = true :=
        fun x hx => h x (List.mem_cons_of_mem _ hx)
      cases rest with
      | nil =>
        simp only [collapseF, hc, if_true, List.dropWhile_nil]
        rw [ih [] (by simp)]
      | cons d tail =>
        have hd : d.isDigit = true := hrest d (List.mem_cons_self _ _)
        have hdw : isWS d = false := isWS_false_of_isDigit hd
        simp [collapseF, hc, List.dropWhile_cons, List.takeWhile_cons, hdw,
          ih _ hrest]

theorem runsAux_class_append {nc : Char} (hnc : isNumClass nc = false) (r : List Char) :
    ∀ (ds cur : List Char), (∀ c ∈ ds, isNumClass c = true) → (cur = [] → ds ≠ []) →
      runsAux cur (ds ++ nc :: r) = (cur.reverse ++ ds) :: runsAux [] r := by
  intro ds
  induction ds with
  | nil =>
    intro cur h1 h2
    have hcur : cur ≠ [] := fun hh => (h2 hh) rfl
    simp [runsAux, hnc, hcur]
  | cons d ds' ih =>
    intro cur h1 h2
    have hd : isNumClass d = true := h1 d (List.mem_cons_self _ _)
    have h1' : ∀ c ∈ ds', isNumClass c = true :=
      fun c hc => h1 c (List.mem_cons_of_mem _ hc)
    simp only [List.cons_append, runsAux, hd, if_true, List.append_eq]
    rw [ih (d :: cur) h1' (by simp)]
    simp

theorem splitOnChar_no_sep {sep : Char} :
    ∀ {l : List Char}, sep ∉ l → splitOnChar sep l = [l] := by
  intro l
  induction l with
  | nil => intro h; rfl
  | cons c rest ih =>
    intro h
    have hc : ¬ c = sep := fun hh => h (hh ▸ List.mem_cons_self _ _)
    simp only [splitOnChar, if_neg hc]
    rw [ih (fun hm => h (List.mem_cons_of_mem _ hm))]

theorem pyFloatVal_digits {ds : List Char} (h1 : ds ≠ []) (h2 : ∀ c ∈ ds, c.isDigit = true) :
    pyFloatVal ds = some (digitsVal ds : Rat) := by
  have hdot : '.' ∉ ds := fun hm => absurd (h2 _ hm) (by decide)
  cases ds with
  | nil => exact absurd rfl h1
  | cons d rest =>
    have hd : d.isDigit = true := h2 d (List.mem_cons_self _ _)
    have hdm : ¬ (d :: rest).head? = some '-' := by
      simp only [List.head?_cons, Option.some.injEq]
      intro hh
      exact absurd hd (hh ▸ by decide)
    unfold pyFloatVal
    simp only [if_neg hdm, splitOnChar_no_sep hdot]
    rw [if_pos ⟨h1, by simpa [List.all_eq_true] using h2⟩]
    simp [hdm]
    intro hh
    subst hh
    exact absurd hd (by decide)


theorem dropTrailingWS_append_last {l' : List Char} {c : Char} (hc : isWS c = false) :
    dropTrailingWS (l' ++ [c]) = l' ++ [c] := by
  unfold dropTrailingWS
  rw [List.reverse_append]
  simp [List.dropWhile_cons, hc]

theorem numericCandidate_first_run (ds : List Char) (h1 : ds ≠ [])
    (h2 : ∀ c ∈ ds, c.isDigit = true) :
    numericCandidate ('x' :: ds ++ 'y' :: "123 456".toList) = some ds := by
  have hds_class : ∀ c ∈ ds, isNumClass c = true :=
    fun c hc => isNumClass_of_isDigit (h2 c hc)
  have hstrip : pyStrip ('x' :: ds ++ 'y' :: "123 456".toList)
      = 'x' :: ds ++ 'y' :: "123 456".toList := by
    unfold pyStrip
    rw [List.cons_append, List.dropWhile_cons, if_neg (by decide), ← List.cons_append]
    rw [show ('x' :: ds ++ 'y' :: "123 456".toList)
        = (('x' :: ds ++ 'y' :: ['1', '2', '3', ' ', '4', '5']) ++ ['6']) from by simp]
    rw [dropTrailingWS_append_last (by decide)]
  have hparen : parenWrapped ('x' :: ds ++ 'y' :: "123 456".toList) = false := by
    unfold parenWrapped
    simp
  have hruns : findallRuns ('x' :: ds ++ 'y' :: "123 456".toList)
      = ds :: runsAux [] "123 456".toList := by
    unfold findallRuns
    rw [List.cons_append]
    rw [show runsAux [] ('x' :: (ds ++ 'y' :: "123 456".toList))
        = runsAux [] (ds ++ 'y' :: "123 456".toList) from by
      simp [runsAux, show isNumClass 'x' = false from by decide]]
    rw [runsAux_class_append (by decide) _ ds [] hds_class (fun _ => h1)]
    simp
  have hcol : collapse ds = ds := by
    unfold collapse
    exact collapseF_digits _ _ h2
  have hfilter : ds.filter (fun c => c.isDigit || c = '.' || c = '-') = ds :=
    List.filter_eq_self.mpr (fun c hc => by simp [h2 c hc])
  have hcomma : ¬ (',' ∈ ds ∧ ¬ '.' ∈ ds) :=
    fun hm => absurd (h2 _ hm.1) (by decide)
  have hfinal : ¬ (ds = [] ∨ ds = ['-'] ∨ ds = ['+']) := by
    intro hcond
    rcases hcond with h | h | h
    · exact h1 h
    · rw [h] at h2
      exact absurd (h2 '-' (List.mem_cons_self _ _)) (by decide)
    · rw [h] at h2
      exact absurd (h2 '+' (List.mem_cons_self _ _)) (by decide)
  have hne : ¬ ('x' :: ds ++ 'y' :: "123 456".toList = [] ∨
      'x' :: ds ++ 'y' :: "123 456".toList = ['-'] ∨
      pyStrip ('x' :: ds ++ 'y' :: "123 456".toList) = []) := by
    rw [hstrip]
    simp
  unfold numericCandidate
  rw [if_neg hne, hstrip]
  simp only [hparen, Bool.false_eq_true, if_false, hruns, hcol, if_neg hcomma, hfilter,
    if_neg hfinal]

/-- Concrete corollary family of the first-run selection: for every token
whose first run is an arbitrary nonempty digit string followed by noise
and by the longer competing run `123 456`, the normalizer parses the
first run and ignores the longer one. -/
theorem clean_number_first_digit_run_family (ds : List Char) (h1 : ds ≠ [])
    (h2 : ∀ c ∈ ds, c.isDigit = true) :
    clean_number (String.mk ('x' :: ds ++ 'y' :: "123 456".toList)) = (digitsVal ds : Rat) := by
  show (match numericCandidate ('x' :: ds ++ 'y' :: "123 456".toList) with
        | none => (0 : Rat)
        | some c => (pyFloatVal c).getD 0) = (digitsVal ds : Rat)
  rw [numericCandidate_first_run ds h1 h2]
  rw [show (match some ds with
        | none => (0 : Rat)
        | some c => (pyFloatVal c).getD 0) = (pyFloatVal ds).getD 0 from rfl]
  rw [pyFloatVal_digits h1 h2]
  rfl



theorem numericCandidate_eq_first (l : List Char) :
    numericCandidate l = numericCandidateFirst l := by
  simp only [numericCandidate, numericCandidateFirst, firstRun]
  split
  · rfl
  · split
    · cases h : findallRuns ('-' :: (List.drop 1 (pyStrip l)).dropLast) <;> simp [h]
    · cases h : findallRuns (pyStrip l) <;> simp [h]

/-- Claim C5, amended: for EVERY input token the Number Normalizer
selects the FIRST maximal run of characters drawn from
`{digit, whitespace, comma, period, minus}` (`parts[0]`, source line 197)
as its numeric candidate and parses that run: both the candidate and the
parsed value coincide everywhere with the spec pipeline amended to
first-run selection — and, by the counterexample, differ from the
longest-run reading the spec describes. -/
theorem C5_amended_first_run_universal (s : String) :
    numericCandidate s.toList = numericCandidateFirst s.toList ∧
      clean_number s = clean_number_first s := by
  refine ⟨numericCandidate_eq_first s.toList, ?_⟩
  unfold clean_number clean_number_first
  rw [numericCandidate_eq_first]

end Espi
